import Mathlib

/-!
Shallow embedding of the Gaussian diffusion engine
(`src/diffusion/diffusion.py`) for the Diffusion-SVC inference repository.

Tensors in this module are broadcast per element: every tensor operation in
the source acts pointwise after the per-timestep coefficient is gathered and
broadcast, so the per-element semantics is modelled with scalar reals, with
the timestep index made explicit.  Schedules are lists of reals; the
coefficient tables are functions of the beta list and the timestep, exactly
as `np.cumprod` / `np.sqrt` derive them in `GaussianDiffusion.__init__`.
-/

namespace DiffusionSVC

/-- Embeds `np.linspace(start, stop, num)` with the default `endpoint=True`:
`num` evenly spaced samples; `num = 1` returns `[start]`, `num = 0` is empty,
otherwise sample `i` is `start + i*(stop-start)/(num-1)`. -/
noncomputable def linspace (start stop : ℝ) (num : ℕ) : List ℝ :=
  if num = 1 then [start]
  else (List.range num).map (fun i : ℕ => start + (i : ℝ) * (stop - start) / ((num : ℝ) - 1))

/-- Embeds `linear_beta_schedule(timesteps, max_beta)` (line 28): `np.linspace(1e-4, max_beta, timesteps)`. -/
noncomputable def linear_beta_schedule (timesteps : ℕ) (max_beta : ℝ) : List ℝ :=
  linspace (1e-4) max_beta timesteps

/-- Embeds `cosine_beta_schedule(timesteps, s=0.008)` (lines 32-38): squared-cosine
cumulative-alpha curve over `steps = timesteps+1` sample points, normalised so
the first entry is 1, consecutive ratios turned into betas and clipped to
[0, 0.999]. -/
noncomputable def cosine_beta_schedule (timesteps : ℕ) (s : ℝ) : List ℝ :=
  let steps := timesteps + 1
  let x := linspace 0 (steps : ℝ) steps
  let ac := x.map (fun v => Real.cos (((v / (steps : ℝ)) + s) / (1 + s) * Real.pi * 0.5) ^ 2)
  let ac0 := ac.getD 0 1
  let acn := ac.map (fun v => v / ac0)
  let betas := (List.range (steps - 1)).map (fun i => 1 - acn.getD (i + 1) 0 / acn.getD i 1)
  betas.map (fun b => min (max b 0) 0.999)

/-- The `beta_schedule` dict (lines 40-43): maps a family name to its schedule
function.  (In the source the cosine entry takes an `s` offset rather than
`max_beta`; only the `'linear'` entry is ever called, with `max_beta`.) -/
noncomputable def beta_schedule_dict (family : String) : Option (ℕ → ℝ → List ℝ) :=
  if family = "cosine" then some (fun timesteps _ => cosine_beta_schedule timesteps (8 / 1000))
  else if family = "linear" then some (fun timesteps max_beta => linear_beta_schedule timesteps max_beta)
  else none

/-- Buffer `alphas_cumprod[t]` from `__init__` (lines 53-54): `np.cumprod(1 - betas)`
at index `t`, i.e. the product of `1 - betas[i]` for `i ≤ t`. -/
noncomputable def alphas_cumprod (betas : List ℝ) (t : ℕ) : ℝ :=
  ((betas.take (t + 1)).map (fun b => 1 - b)).prod

/-- Buffer `alphas_cumprod_prev[t]` (line 55): `np.append(1., alphas_cumprod[:-1])`. -/
noncomputable def alphas_cumprod_prev (betas : List ℝ) (t : ℕ) : ℝ :=
  match t with
  | 0 => 1
  | n + 1 => alphas_cumprod betas n

/-- Buffer `sqrt_alphas_cumprod` (line 67). -/
noncomputable def sqrt_alphas_cumprod (betas : List ℝ) (t : ℕ) : ℝ :=
  Real.sqrt (alphas_cumprod betas t)

/-- Buffer `sqrt_one_minus_alphas_cumprod` (line 68). -/
noncomputable def sqrt_one_minus_alphas_cumprod (betas : List ℝ) (t : ℕ) : ℝ :=
  Real.sqrt (1 - alphas_cumprod betas t)

/-- Buffer `sqrt_recip_alphas_cumprod` (line 70): `np.sqrt(1. / alphas_cumprod)`. -/
noncomputable def sqrt_recip_alphas_cumprod (betas : List ℝ) (t : ℕ) : ℝ :=
  Real.sqrt (1 / alphas_cumprod betas t)

/-- Buffer `sqrt_recipm1_alphas_cumprod` (line 71): `np.sqrt(1. / alphas_cumprod - 1)`. -/
noncomputable def sqrt_recipm1_alphas_cumprod (betas : List ℝ) (t : ℕ) : ℝ :=
  Real.sqrt (1 / alphas_cumprod betas t - 1)

/-- Buffer `posterior_variance` (line 73): `betas * (1 - ᾱ_prev) / (1 - ᾱ)`. -/
noncomputable def posterior_variance (betas : List ℝ) (t : ℕ) : ℝ :=
  betas.getD t 0 * (1 - alphas_cumprod_prev betas t) / (1 - alphas_cumprod betas t)

/-- Buffer `posterior_log_variance_clipped` (line 75): `np.log(np.maximum(pv, 1e-20))`. -/
noncomputable def posterior_log_variance_clipped (betas : List ℝ) (t : ℕ) : ℝ :=
  Real.log (max (posterior_variance betas t) (1e-20))

/-- Buffer `posterior_mean_coef1` (line 76): `betas * √ᾱ_prev / (1 - ᾱ)`. -/
noncomputable def posterior_mean_coef1 (betas : List ℝ) (t : ℕ) : ℝ :=
  betas.getD t 0 * Real.sqrt (alphas_cumprod_prev betas t) / (1 - alphas_cumprod betas t)

/-- Buffer `posterior_mean_coef2` (line 77): `(1 - ᾱ_prev) * √alpha / (1 - ᾱ)`. -/
noncomputable def posterior_mean_coef2 (betas : List ℝ) (t : ℕ) : ℝ :=
  (1 - alphas_cumprod_prev betas t) * Real.sqrt (1 - betas.getD t 0) /
    (1 - alphas_cumprod betas t)

/-- Embeds `norm_spec` (lines 275-276): `(x - spec_min) / (spec_max - spec_min) * 2 - 1`. -/
noncomputable def norm_spec (spec_min spec_max x : ℝ) : ℝ :=
  (x - spec_min) / (spec_max - spec_min) * 2 - 1

/-- Embeds `denorm_spec` (lines 278-279): `(x + 1) / 2 * (spec_max - spec_min) + spec_min`. -/
noncomputable def denorm_spec (spec_min spec_max x : ℝ) : ℝ :=
  (x + 1) / 2 * (spec_max - spec_min) + spec_min

/-- Embeds `q_sample(x_start, t, noise)` (lines 153-155), per element:
`√ᾱ_t·x_start + √(1-ᾱ_t)·noise`. -/
noncomputable def q_sample (betas : List ℝ) (x_start : ℝ) (t : ℕ) (noise : ℝ) : ℝ :=
  sqrt_alphas_cumprod betas t * x_start + sqrt_one_minus_alphas_cumprod betas t * noise

/-- Embeds `predict_start_from_noise(x_t, t, noise)` (lines 87-88), per element:
`√(1/ᾱ_t)·x_t - √(1/ᾱ_t - 1)·noise`. -/
noncomputable def predict_start_from_noise (betas : List ℝ) (x_t : ℝ) (t : ℕ) (noise : ℝ) : ℝ :=
  sqrt_recip_alphas_cumprod betas t * x_t - sqrt_recipm1_alphas_cumprod betas t * noise

/-- Embeds `x_recon.clamp_(-1., 1.)` (line 100): `torch.clamp` to the interval [-1, 1]. -/
noncomputable def clamp_unit (v : ℝ) : ℝ :=
  min (max v (-1)) 1

/-- Embeds the `q_posterior` posterior mean (line 91): `coef1·x_start + coef2·x_t`. -/
noncomputable def q_posterior_mean (betas : List ℝ) (x_start x_t : ℝ) (t : ℕ) : ℝ :=
  posterior_mean_coef1 betas t * x_start + posterior_mean_coef2 betas t * x_t

/-- The denoising oracle `denoise_fn` (external): the source calls it on the
concatenation of `x`'s single channel with the conditioning tensor plus the
timestep; modelled as a function of `(x, cond, t)`.  The optional
`reference_mel` is threaded through unchanged and omitted. -/
def DenoiseOracle : Type :=
  ℝ → ℝ → ℕ → ℝ

/-- Embeds `p_mean_variance` (lines 96-102): oracle call, `predict_start_from_noise`,
clamp, then `q_posterior`; returns (mean, variance, log_variance). -/
noncomputable def p_mean_variance (betas : List ℝ) (den : DenoiseOracle) (x cond : ℝ)
    (t : ℕ) : ℝ × ℝ × ℝ :=
  let noise_pred := den x cond t
  let x_recon := clamp_unit (predict_start_from_noise betas x t noise_pred)
  (q_posterior_mean betas x_recon x t, posterior_variance betas t,
    posterior_log_variance_clipped betas t)

/-- Embeds the `nonzero_mask` of `p_sample` (line 109): `1 - (t == 0).float()`. -/
noncomputable def nonzero_mask (t : ℕ) : ℝ :=
  1 - (if t = 0 then 1 else 0)

/-- Embeds `p_sample` (lines 104-110), per element, with the fresh Gaussian draw made
an explicit argument: `mean + mask·exp(0.5·log_variance)·noise`. -/
noncomputable def p_sample (betas : List ℝ) (den : DenoiseOracle) (x cond : ℝ) (t : ℕ)
    (noise : ℝ) : ℝ :=
  let mv := p_mean_variance betas den x cond t
  mv.1 + nonzero_mask t * Real.exp (0.5 * mv.2.2) * noise

/-- The DDIM update rule of `p_sample_ddim` (line 118), with the noise
prediction as an explicit argument: `√ᾱ_prev·(x/√ᾱ_t +
(√((1-ᾱ_prev)/ᾱ_prev) − √((1-ᾱ_t)/ᾱ_t))·noise_pred)`, where
`ᾱ_prev = alphas_cumprod[max(t-interval, 0)]` (line 115; over ℕ the
truncated subtraction `t - interval` is exactly `torch.max(t - interval, 0)`). -/
noncomputable def ddim_x_prev (betas : List ℝ) (interval : ℕ) (x noise_pred : ℝ)
    (t : ℕ) : ℝ :=
  let a_t := alphas_cumprod betas t
  let a_prev := alphas_cumprod betas (t - interval)
  Real.sqrt a_prev * (x / Real.sqrt a_t +
    (Real.sqrt ((1 - a_prev) / a_prev) - Real.sqrt ((1 - a_t) / a_t)) * noise_pred)

/-- Embeds `p_sample_ddim` (lines 112-119): oracle call then the DDIM update. -/
noncomputable def p_sample_ddim (betas : List ℝ) (den : DenoiseOracle) (interval : ℕ)
    (x cond : ℝ) (t : ℕ) : ℝ :=
  ddim_x_prev betas interval x (den x cond t) t

/-- The PLMS helper `get_x_pred(x, noise_t, t)` (lines 124-130):
`x_delta = (ᾱ_prev - ᾱ_t)·((1/(√ᾱ_t·(√ᾱ_t+√ᾱ_prev)))·x -
1/(√ᾱ_t·(√((1-ᾱ_prev)·ᾱ_t) + √((1-ᾱ_t)·ᾱ_prev)))·noise_t)`, result `x + x_delta`. -/
noncomputable def get_x_pred (betas : List ℝ) (interval : ℕ) (x noise_t : ℝ)
    (t : ℕ) : ℝ :=
  let a_t := alphas_cumprod betas t
  let a_prev := alphas_cumprod betas (t - interval)
  let a_t_sq := Real.sqrt a_t
  let a_prev_sq := Real.sqrt a_prev
  let x_delta := (a_prev - a_t) * ((1 / (a_t_sq * (a_t_sq + a_prev_sq))) * x -
    1 / (a_t_sq * (Real.sqrt ((1 - a_prev) * a_t) + Real.sqrt ((1 - a_t) * a_prev))) * noise_t)
  x + x_delta

/-- The timestep of the extra bootstrap oracle call in `p_sample_plms`
(line 139): the Python expression `max(t - interval, 0)` on integers. -/
def plmsBootstrapTimestep (t interval : ℤ) : ℤ :=
  max (t - interval) 0

/-- Embeds `deque(maxlen=4).append` (line 60 / line 149): append on the right; when
the deque already holds 4 entries the oldest (leftmost) is evicted. -/
def pushBounded4 {α : Type} (l : List α) (a : α) : List α :=
  if l.length < 4 then l ++ [a] else l.tail ++ [a]

/-- Embeds `p_sample_plms` (lines 121-151) as a transition on `(x, noise_list)`:
oracle call, multistep combination keyed on the history length (bootstrap /
2nd / 3rd / 4th order), `get_x_pred`, then push the pre-extrapolation
`noise_pred` onto the bounded history.  `noise_list[-k]` is the `k`-th most
recent entry, i.e. index `k-1` of the reversed list. -/
noncomputable def p_sample_plms (betas : List ℝ) (den : DenoiseOracle) (interval : ℕ)
    (x cond : ℝ) (t : ℕ) (noise_list : List ℝ) : ℝ × List ℝ :=
  let noise_pred := den x cond t
  let noise_pred_prime :=
    if noise_list.length = 0 then
      let x_pred := get_x_pred betas interval x noise_pred t
      let noise_pred_prev := den x_pred cond (plmsBootstrapTimestep t interval).toNat
      (noise_pred + noise_pred_prev) / 2
    else if noise_list.length = 1 then
      (3 * noise_pred - noise_list.reverse.getD 0 0) / 2
    else if noise_list.length = 2 then
      (23 * noise_pred - 16 * noise_list.reverse.getD 0 0 + 5 * noise_list.reverse.getD 1 0) / 12
    else
      (55 * noise_pred - 59 * noise_list.reverse.getD 0 0 + 37 * noise_list.reverse.getD 1 0 -
        9 * noise_list.reverse.getD 2 0) / 24
  let x_prev := get_x_pred betas interval x noise_pred_prime t
  (x_prev, pushBounded4 noise_list noise_pred)

/-- Python `range(0, stop, step)` for `step > 0`: `⌈stop/step⌉` values
`0, step, 2·step, …` below `stop`. -/
def pyRangeStep (stop step : ℕ) : List ℕ :=
  List.range' 0 ((stop + step - 1) / step) step

/-- The `pndm` branch of `forward` (lines 247-254): the history is reset to a
fresh empty deque, then `p_sample_plms` is folded over
`reversed(range(0, t, infer_speedup))` starting from the initial state. -/
noncomputable def plmsRun (betas : List ℝ) (den : DenoiseOracle) (interval : ℕ)
    (t : ℕ) (x0 cond : ℝ) : ℝ × List ℝ :=
  ((pyRangeStep t interval).reverse).foldl
    (fun s i => p_sample_plms betas den interval s.1 cond i s.2) (x0, [])

/-- The `ddim` branch of `forward` (lines 256-262). -/
noncomputable def ddimRun (betas : List ℝ) (den : DenoiseOracle) (interval : ℕ)
    (t : ℕ) (x0 cond : ℝ) : ℝ :=
  ((pyRangeStep t interval).reverse).foldl
    (fun x i => p_sample_ddim betas den interval x cond i) x0

/-- Python exceptions that the modelled paths can raise. -/
inductive PyError where
  | typeError : PyError
  | notImplementedError : PyError
deriving DecidableEq

/-- A Python object bound to a global name, as far as callability is
concerned: a module object or a callable. -/
inductive PyObj where
  | module : String → PyObj
  | callableObj : PyObj
deriving DecidableEq

/-- Binding of `import tqdm` (line 8): it binds the global name `tqdm` to the *module*
object, not to the `tqdm.tqdm` class. -/
def tqdm_binding : PyObj :=
  PyObj.module ("tqdm")

/-- Calling a module object raises `TypeError`; only callables can be called. -/
def pyObjCallable : PyObj → Bool
  | PyObj.module _ => false
  | PyObj.callableObj => true

/-- The raw ancestral branch of `forward` (lines 265-271).  With
`use_tqdm` the loop iterator is built by calling the name `tqdm` (line 267)
— the module object bound by `import tqdm` — which raises `TypeError`
before the first `p_sample` step; without it the loop folds `p_sample` over
`reversed(range(0, t))` with a fresh Gaussian draw (modelled by `noise`)
per step. -/
noncomputable def forward_raw_ancestral (betas : List ℝ) (den : DenoiseOracle)
    (noise : ℕ → ℝ) (t : ℕ) (x0 cond : ℝ) (use_tqdm : Bool) : Except PyError ℝ :=
  if use_tqdm then
    if pyObjCallable tqdm_binding then
      Except.ok (((List.range t).reverse).foldl
        (fun x i => p_sample betas den x cond i (noise i)) x0)
    else Except.error PyError.typeError
  else
    Except.ok (((List.range t).reverse).foldl
      (fun x i => p_sample betas den x cond i (noise i)) x0)

/-- The inference dispatch of `forward` (lines 198-271): the fast-solver
branches delegate to the external integrators (modelled by the opaque-valued
`solver` argument, out of scope per the interface); `pndm` and `ddim` run
their step loops (their progress bar uses the correct `tqdm.tqdm` and is a
pure side channel); an unknown method raises `NotImplementedError`
(line 264); otherwise (no method, or `infer_speedup <= 1`) the raw ancestral
branch runs. -/
noncomputable def forward_infer (betas : List ℝ) (den : DenoiseOracle) (noise : ℕ → ℝ)
    (solver : String → ℝ) (method : Option String) (infer_speedup : ℤ) (t : ℕ)
    (x0 cond : ℝ) (use_tqdm : Bool) : Except PyError ℝ :=
  if method.isSome && decide (1 < infer_speedup) then
    if method = some ("dpm-solver") then Except.ok (solver ("dpm-solver"))
    else if method = some ("unipc") then Except.ok (solver ("unipc"))
    else if method = some ("pndm") then
      Except.ok (plmsRun betas den infer_speedup.toNat t x0 cond).1
    else if method = some ("ddim") then
      Except.ok (ddimRun betas den infer_speedup.toNat t x0 cond)
    else Except.error PyError.notImplementedError
  else forward_raw_ancestral betas den noise t x0 cond use_tqdm

/-- The fields of a constructed `GaussianDiffusion` that the claims use. -/
structure GDState where
  betas : List ℝ
  num_timesteps : ℕ
  k_step : ℕ
  out_dims : ℕ
  spec_min : ℝ
  spec_max : ℝ

/-- Embeds `GaussianDiffusion.__init__` (lines 46-79).  The schedule family is not a
parameter: line 51 reads `beta_schedule['linear']` unconditionally and calls
it with `(timesteps, max_beta=max_beta)`.  For every `timesteps : ℕ` no
operation in the body raises (the derived buffers are total), so
construction always succeeds. -/
noncomputable def GaussianDiffusion_init (out_dims timesteps k_step : ℕ)
    (max_beta spec_min spec_max : ℝ) : Except PyError GDState :=
  let betas :=
    match beta_schedule_dict ("linear") with
    | some f => f timesteps max_beta
    | none => []
  Except.ok
    { betas := betas
      num_timesteps := betas.length
      k_step := k_step
      out_dims := out_dims
      spec_min := spec_min
      spec_max := spec_max }

/-- Whether an engine call succeeded (`Except.ok`). -/
def exceptOk {ε α : Type} : Except ε α → Bool
  | Except.ok _ => true
  | Except.error _ => false

/-- C5: for every `spec_min`, `spec_max` with `spec_max ≠ spec_min` and every
`x`, `denorm_spec (norm_spec x) = x` exactly over the reals: the two affine
maps of lines 275-279 are mutually inverse (so the round-trip is the identity
for all `x`, in particular on `[spec_min, spec_max]`). -/
theorem norm_denorm_roundtrip (spec_min spec_max x : ℝ) (h : spec_max ≠ spec_min) :
    denorm_spec spec_min spec_max (norm_spec spec_min spec_max x) = x := by
  unfold norm_spec denorm_spec
  have hd : spec_max - spec_min ≠ 0 := sub_ne_zero.mpr h
  field_simp
  ring

theorem norm_denorm_roundtrip_witness :
    (2 : ℝ) ≠ -12 ∧ denorm_spec (-12) 2 (norm_spec (-12) 2 1) = 1 :=
  ⟨by norm_num, norm_denorm_roundtrip (-12) 2 1 (by norm_num)⟩

/-- C3 (counterexample): the extra bootstrap oracle call of `p_sample_plms`
is *not* issued at the unclamped timestep `t - interval`: at `t = 0`,
`interval = 10` the source's `max(t - interval, 0)` (line 139) yields 0,
not -10. -/
theorem plms_bootstrap_timestep_cex :
    plmsBootstrapTimestep 0 10 = 0 ∧ plmsBootstrapTimestep 0 10 ≠ (0 : ℤ) - 10 := by
  constructor
  · decide
  · decide

/-- C3 (amended): in the PLMS bootstrap branch the extra oracle call is
issued at the *clamped* next timestep `max(t - interval, 0)`, floored at 0
like the other branches (line 139 wraps `t - interval` in `max(·, 0)`). -/
theorem plms_bootstrap_timestep_clamped (t interval : ℤ) :
    plmsBootstrapTimestep t interval = max (t - interval) 0 ∧
      0 ≤ plmsBootstrapTimestep t interval :=
  ⟨rfl, le_max_right _ _⟩

/-- C4 (counterexample): constructing the engine with `T = 0 < 1` does not
fail with any error: `GaussianDiffusion.__init__` has no validation, so the
construction succeeds (with an empty beta table). -/
theorem init_T_zero_succeeds_cex :
    exceptOk (GaussianDiffusion_init 128 0 1000 (1 / 50) (-12) 2) = true := rfl

/-- C4 (amended): construction never fails: `__init__` validates neither the
timestep count nor a schedule family (it takes no family argument and reads
`beta_schedule['linear']` unconditionally), so for every `T : ℕ` and every
`max_beta` the engine is built without raising. -/
theorem init_never_fails (out_dims timesteps k_step : ℕ) (max_beta smin smax : ℝ) :
    exceptOk (GaussianDiffusion_init out_dims timesteps k_step max_beta smin smax) = true := rfl

/-- C9: every constructed engine derives its beta table from the linear
schedule — line 51 selects `beta_schedule['linear']` regardless of any
configuration — while the cosine schedule, though registered in the
`beta_schedule` dict, is never consulted. -/
theorem init_always_linear_schedule (out_dims timesteps k_step : ℕ)
    (max_beta smin smax : ℝ) (s : GDState)
    (h : GaussianDiffusion_init out_dims timesteps k_step max_beta smin smax = Except.ok s) :
    s.betas = linear_beta_schedule timesteps max_beta ∧
      (beta_schedule_dict ("cosine")).isSome = true := by
  have h' : (GaussianDiffusion_init out_dims timesteps k_step max_beta smin smax) =
      Except.ok ({ betas := linear_beta_schedule timesteps max_beta
                   num_timesteps := (linear_beta_schedule timesteps max_beta).length
                   k_step := k_step
                   out_dims := out_dims
                   spec_min := smin
                   spec_max := smax } : GDState) := rfl
  rw [h'] at h
  cases h
  exact ⟨rfl, rfl⟩

theorem init_always_linear_schedule_witness :
    ({ betas := linear_beta_schedule 1000 (1 / 50)
       num_timesteps := (linear_beta_schedule 1000 (1 / 50)).length
       k_step := 1000
       out_dims := 128
       spec_min := -12
       spec_max := 2 } : GDState).betas = linear_beta_schedule 1000 (1 / 50) ∧
      (beta_schedule_dict ("cosine")).isSome = true :=
  init_always_linear_schedule 128 1000 1000 (1 / 50) (-12) 2 _ rfl

/-- C7: at `t = 0` the ancestral `p_sample` output does not depend on the
injected fresh noise: the `nonzero_mask` of line 109 is 0 exactly at `t = 0`,
so two runs differing only in the fresh-noise draw agree (they both return
the posterior mean). -/
theorem p_sample_t0_noise_independent (betas : List ℝ) (den : DenoiseOracle)
    (x cond : ℝ) (t : ℕ) (noise1 noise2 : ℝ) (h : t = 0) :
    p_sample betas den x cond t noise1 = p_sample betas den x cond t noise2 := by
  subst h
  simp [p_sample, nonzero_mask]

theorem p_sample_t0_noise_independent_witness :
    (0 : ℕ) = 0 ∧
      p_sample [1 / 2] (fun _ _ _ => 0) 0 0 0 0 = p_sample [1 / 2] (fun _ _ _ => 0) 0 0 0 1 :=
  ⟨rfl, p_sample_t0_noise_independent [1 / 2] (fun _ _ _ => 0) 0 0 0 0 1 rfl⟩

/-- C10: an inference call that takes the raw ancestral path (no method, or
`infer_speedup ≤ 1`) with `use_tqdm = true` and starting timestep `t ≥ 1`
raises `TypeError` before any ancestral step: line 267 calls the name `tqdm`,
which `import tqdm` bound to the module object, and a module is not
callable.  The result is the error for every oracle and every noise draw, so
no sampling step is executed. -/
theorem raw_ancestral_tqdm_type_error (betas : List ℝ) (den : DenoiseOracle)
    (noise : ℕ → ℝ) (solver : String → ℝ) (method : Option String)
    (infer_speedup : ℤ) (t : ℕ) (x0 cond : ℝ)
    (hraw : method = none ∨ infer_speedup ≤ 1) (_ht : 1 ≤ t) :
    forward_infer betas den noise solver method infer_speedup t x0 cond true =
      Except.error PyError.typeError := by
  have hguard : (method.isSome && decide (1 < infer_speedup)) = false := by
    rcases hraw with h | h
    · subst h; rfl
    · simp [decide_eq_false (by omega : ¬ (1 < infer_speedup))]
  unfold forward_infer
  rw [hguard]
  simp [forward_raw_ancestral, pyObjCallable, tqdm_binding]

theorem raw_ancestral_tqdm_type_error_witness :
    ((none : Option String) = none ∨ (10 : ℤ) ≤ 1) ∧ (1 : ℕ) ≤ 1 ∧
      forward_infer [1 / 2] (fun _ _ _ => 0) (fun _ => 0) (fun _ => 0) none 10 1 0 0 true =
        Except.error PyError.typeError :=
  ⟨Or.inl rfl, le_refl 1,
    raw_ancestral_tqdm_type_error [1 / 2] (fun _ _ _ => 0) (fun _ => 0) (fun _ => 0)
      none 10 1 0 0 (Or.inl rfl) (le_refl 1)⟩

/-- Appending to the bounded deque keeps its length at most 4. -/
theorem pushBounded4_length_le {α : Type} (l : List α) (a : α) (h : l.length ≤ 4) :
    (pushBounded4 l a).length ≤ 4 := by
  unfold pushBounded4
  split
  · simp only [List.length_append, List.length_singleton]
    omega
  · simp only [List.length_append, List.length_singleton, List.length_tail]
    omega

/-- The PLMS step fold preserves the history bound. -/
theorem plms_foldl_history_le (betas : List ℝ) (den : DenoiseOracle) (interval : ℕ)
    (cond : ℝ) (ts : List ℕ) :
    ∀ (x0 : ℝ) (nl : List ℝ), nl.length ≤ 4 →
      ((ts.foldl (fun s i => p_sample_plms betas den interval s.1 cond i s.2)
        (x0, nl)).2).length ≤ 4 := by
  induction ts with
  | nil => intro x0 nl h; simpa using h
  | cons hd tl ih =>
    intro x0 nl h
    simp only [List.foldl_cons]
    exact ih _ _ (pushBounded4_length_le nl (den x0 cond hd) h)

/-- C8: PLMS noise-history discipline.  (i) Throughout any `pndm` run — i.e.
after the fold over any list of timesteps, hence at every intermediate state,
each being a run over a prefix — the history length never exceeds 4;
(ii) each `p_sample_plms` call pushes exactly the current pre-extrapolation
`noise_pred` (the oracle output at `(x, cond, t)`) onto the history;
(iii) when the capacity 4 is reached the oldest (leftmost) entry is evicted
first and the new entry joins at the right (FIFO); below capacity nothing is
evicted; (iv) a run starts from the empty history (the `forward` `pndm`
branch rebinds a fresh `deque(maxlen=4)`), as the zero-step run exhibits. -/
theorem plms_history_invariant (betas : List ℝ) (den : DenoiseOracle)
    (interval t : ℕ) (x0 cond : ℝ) :
    (plmsRun betas den interval t x0 cond).2.length ≤ 4 ∧
      (∀ (x : ℝ) (tt : ℕ) (nl : List ℝ),
        (p_sample_plms betas den interval x cond tt nl).2 = pushBounded4 nl (den x cond tt)) ∧
      (∀ (nl : List ℝ) (a : ℝ), nl.length = 4 → pushBounded4 nl a = nl.tail ++ [a]) ∧
      (∀ (nl : List ℝ) (a : ℝ), nl.length < 4 → pushBounded4 nl a = nl ++ [a]) ∧
      (plmsRun betas den interval 0 x0 cond).2 = [] := by
  refine ⟨?_, ?_, ?_, ?_, ?_⟩
  · exact plms_foldl_history_le betas den interval cond _ x0 [] (by simp)
  · intro x tt nl; rfl
  · intro nl a h
    unfold pushBounded4
    rw [if_neg (by omega)]
  · intro nl a h
    unfold pushBounded4
    rw [if_pos h]
  · have h0 : (interval - 1) / interval = 0 := by
      rcases Nat.eq_zero_or_pos interval with h | h
      · simp [h]
      · exact Nat.div_eq_of_lt (by omega)
    simp [plmsRun, pyRangeStep, h0]

theorem plms_history_invariant_witness :
    pushBounded4 [(0 : ℝ), 0, 0, 0] 1 = [(0 : ℝ), 0, 0, 0].tail ++ [1] ∧
      pushBounded4 ([] : List ℝ) 1 = [] ++ [1] :=
  ⟨(plms_history_invariant [] (fun _ _ _ => 0) 1 0 0 0).2.2.1 [0, 0, 0, 0] 1 rfl,
    (plms_history_invariant [] (fun _ _ _ => 0) 1 0 0 0).2.2.2.1 [] 1 (by norm_num)⟩

/-- The `linspace` list always has exactly `num` entries. -/
theorem linspace_length (a b : ℝ) (num : ℕ) : (linspace a b num).length = num := by
  unfold linspace
  split
  · simp_all
  · simp

/-- Entry `i` of `linspace a b num` for `num ≥ 2`. -/
theorem linspace_getD (a b : ℝ) (num i : ℕ) (h2 : 2 ≤ num) (hi : i < num) :
    (linspace a b num).getD i 0 = a + i * (b - a) / ((num : ℝ) - 1) := by
  unfold linspace
  rw [if_neg (by omega)]
  rw [List.getD_eq_getElem?_getD, List.getElem?_map, List.getElem?_range hi]
  rfl

/-- C6 (counterexample): `linear_beta_schedule` does not always include
`max_beta`: `np.linspace(1e-4, max_beta, 1)` returns the single value
`[1e-4]`, so for `T = 1`, `max_beta = 0.02` the claimed "from 1e-4 to
max_beta inclusive" fails — `0.02` is not among the returned values. -/
theorem linear_schedule_T1_cex :
    linear_beta_schedule 1 (1 / 50) = [1e-4] ∧
      ((1 : ℝ) / 50) ∉ linear_beta_schedule 1 (1 / 50) := by
  constructor
  · norm_num [linear_beta_schedule, linspace]
  · norm_num [linear_beta_schedule, linspace]

/-- C6 (amended): for every `T ≥ 2` and `max_beta > 1e-4`,
`linear_beta_schedule T max_beta` returns exactly `T` evenly spaced values
(consecutive difference `(max_beta - 1e-4)/(T-1)`) with first entry `1e-4`
and last entry `max_beta`, and the values are strictly increasing; for
`T = 1` the single value is `1e-4` (endpoint dropped).  Instantiated at
`T = 1000`, `max_beta = 0.02` this gives `betas[0] = 1e-4`,
`betas[999] = 0.02`, strictly increasing. -/
theorem linear_schedule_props (T : ℕ) (mb : ℝ) (h2 : 2 ≤ T) (hmb : 1e-4 < mb) :
    (linear_beta_schedule T mb).length = T ∧
      (linear_beta_schedule T mb).getD 0 0 = 1e-4 ∧
      (linear_beta_schedule T mb).getD (T - 1) 0 = mb ∧
      (∀ i, i + 1 < T →
        (linear_beta_schedule T mb).getD (i + 1) 0 - (linear_beta_schedule T mb).getD i 0 =
          (mb - 1e-4) / ((T : ℝ) - 1)) ∧
      (∀ i, i + 1 < T →
        (linear_beta_schedule T mb).getD i 0 < (linear_beta_schedule T mb).getD (i + 1) 0) := by
  have hTR : (2 : ℝ) ≤ (T : ℝ) := by exact_mod_cast h2
  have hden : (0 : ℝ) < (T : ℝ) - 1 := by linarith
  have hstep : (0 : ℝ) < (mb - 1e-4) / ((T : ℝ) - 1) := div_pos (by linarith) hden
  have hspace : ∀ i, i + 1 < T →
      (linear_beta_schedule T mb).getD (i + 1) 0 - (linear_beta_schedule T mb).getD i 0 =
        (mb - 1e-4) / ((T : ℝ) - 1) := by
    intro i hi
    unfold linear_beta_schedule
    rw [linspace_getD _ _ _ (i + 1) h2 (by omega), linspace_getD _ _ _ i h2 (by omega)]
    push_cast
    ring
  refine ⟨linspace_length _ _ _, ?_, ?_, hspace, ?_⟩
  · unfold linear_beta_schedule
    rw [linspace_getD _ _ _ 0 h2 (by omega)]
    norm_num
  · unfold linear_beta_schedule
    rw [linspace_getD _ _ _ (T - 1) h2 (by omega)]
    have hcast : ((T - 1 : ℕ) : ℝ) = (T : ℝ) - 1 := by
      have h1 : 1 ≤ T := by omega
      push_cast [h1]
      ring
    rw [hcast]
    field_simp
  · intro i hi
    have hd := hspace i hi
    linarith [hstep]

theorem linear_schedule_props_witness :
    2 ≤ 1000 ∧ (1e-4 : ℝ) < 1 / 50 ∧
      ((linear_beta_schedule 1000 (1 / 50)).length = 1000 ∧
        (linear_beta_schedule 1000 (1 / 50)).getD 0 0 = 1e-4 ∧
        (linear_beta_schedule 1000 (1 / 50)).getD (1000 - 1) 0 = 1 / 50 ∧
        (∀ i, i + 1 < 1000 →
          (linear_beta_schedule 1000 (1 / 50)).getD (i + 1) 0 -
              (linear_beta_schedule 1000 (1 / 50)).getD i 0 =
            (1 / 50 - 1e-4) / ((1000 : ℝ) - 1)) ∧
        (∀ i, i + 1 < 1000 →
          (linear_beta_schedule 1000 (1 / 50)).getD i 0 <
            (linear_beta_schedule 1000 (1 / 50)).getD (i + 1) 0)) :=
  ⟨by norm_num, by norm_num, linear_schedule_props 1000 (1 / 50) (by norm_num) (by norm_num)⟩

/-- C1: for every `x_start`, `noise` and timestep `t` with
`0 < alphas_cumprod[t] ≤ 1`, `predict_start_from_noise` inverts `q_sample`
exactly over the reals:
`predict_start_from_noise(q_sample(x_start, t, noise), t, noise) = x_start`. -/
theorem q_sample_predict_start_inverse (betas : List ℝ) (x : ℝ) (t : ℕ) (n : ℝ)
    (h1 : 0 < alphas_cumprod betas t) (h2 : alphas_cumprod betas t ≤ 1) :
    predict_start_from_noise betas (q_sample betas x t n) t n = x := by
  unfold predict_start_from_noise q_sample sqrt_recip_alphas_cumprod
    sqrt_recipm1_alphas_cumprod sqrt_alphas_cumprod sqrt_one_minus_alphas_cumprod
  set a := alphas_cumprod betas t with ha
  have hs : 0 < Real.sqrt a := Real.sqrt_pos.mpr h1
  have hrw : 1 / a - 1 = (1 - a) / a := by field_simp
  rw [hrw]
  rw [Real.sqrt_div (show (0 : ℝ) ≤ 1 by norm_num) a]
  rw [Real.sqrt_div (show (0 : ℝ) ≤ 1 - a by linarith) a]
  rw [Real.sqrt_one]
  field_simp

theorem q_sample_predict_start_inverse_witness :
    (0 : ℝ) < alphas_cumprod [1 / 2] 0 ∧ alphas_cumprod [1 / 2] 0 ≤ 1 ∧
      predict_start_from_noise [1 / 2] (q_sample [1 / 2] 2 0 3) 0 3 = 2 :=
  ⟨by norm_num [alphas_cumprod], by norm_num [alphas_cumprod],
    q_sample_predict_start_inverse [1 / 2] 2 0 3
      (by norm_num [alphas_cumprod]) (by norm_num [alphas_cumprod])⟩

/-- The core algebraic identity behind C2, over the square roots
`sa = √ᾱ_t`, `sp = √ᾱ_prev`, `s1a = √(1-ᾱ_t)`, `s1p = √(1-ᾱ_prev)`:
the `get_x_pred` arrangement equals the DDIM arrangement. -/
theorem plms_ddim_algebra (sa sp s1a s1p x n : ℝ) (hsa : 0 < sa) (hsp : 0 < sp)
    (hD : 0 < s1p * sa + s1a * sp)
    (ha : s1a ^ 2 = 1 - sa ^ 2) (hp : s1p ^ 2 = 1 - sp ^ 2) :
    x + (sp ^ 2 - sa ^ 2) * (1 / (sa * (sa + sp)) * x -
        1 / (sa * (s1p * sa + s1a * sp)) * n) =
      sp * (x / sa + (s1p / sp - s1a / sa) * n) := by
  have key : (s1a * sp - s1p * sa) * (s1p * sa + s1a * sp) = sp ^ 2 - sa ^ 2 := by
    linear_combination sp ^ 2 * ha - sa ^ 2 * hp
  have hsane : sa ≠ 0 := ne_of_gt hsa
  have hspne : sp ≠ 0 := ne_of_gt hsp
  have hsum : sa + sp ≠ 0 := by positivity
  have hDne : s1p * sa + s1a * sp ≠ 0 := ne_of_gt hD
  have split : x + (sp ^ 2 - sa ^ 2) * (1 / (sa * (sa + sp)) * x -
      1 / (sa * (s1p * sa + s1a * sp)) * n) =
      (1 + (sp ^ 2 - sa ^ 2) * (1 / (sa * (sa + sp)))) * x -
        ((sp ^ 2 - sa ^ 2) * (1 / (sa * (s1p * sa + s1a * sp)))) * n := by
    ring
  rw [split]
  nth_rewrite 2 [← key]
  field_simp
  ring

/-- C2: for every `x`, noise prediction `n` and timestep `t` with
`alphas_cumprod[t]` and `alphas_cumprod[max(t-interval, 0)]` in `(0, 1)`, the
PLMS helper `get_x_pred(x, n, t)` computes exactly the same real value as the
DDIM update rule of `p_sample_ddim` (line 118): the two differently-arranged
algebraic forms are equal. -/
theorem get_x_pred_eq_ddim (betas : List ℝ) (interval : ℕ) (x n : ℝ) (t : ℕ)
    (h1 : 0 < alphas_cumprod betas t) (h2 : alphas_cumprod betas t < 1)
    (h3 : 0 < alphas_cumprod betas (t - interval))
    (h4 : alphas_cumprod betas (t - interval) < 1) :
    get_x_pred betas interval x n t = ddim_x_prev betas interval x n t := by
  simp only [get_x_pred, ddim_x_prev]
  set a := alphas_cumprod betas t
  set p := alphas_cumprod betas (t - interval)
  have h1a : (0 : ℝ) ≤ 1 - a := by linarith
  have h1p : (0 : ℝ) ≤ 1 - p := by linarith
  rw [Real.sqrt_mul h1p a, Real.sqrt_mul h1a p, Real.sqrt_div h1p p, Real.sqrt_div h1a a]
  set sa := Real.sqrt a with hsadef
  set sp := Real.sqrt p with hspdef
  set s1a := Real.sqrt (1 - a) with hs1adef
  set s1p := Real.sqrt (1 - p) with hs1pdef
  have hsa : 0 < sa := Real.sqrt_pos.mpr h1
  have hsp : 0 < sp := Real.sqrt_pos.mpr h3
  have hs1a : 0 ≤ s1a := Real.sqrt_nonneg _
  have hs1p : 0 < s1p := Real.sqrt_pos.mpr (by linarith)
  have hsa2 : sa ^ 2 = a := Real.sq_sqrt (le_of_lt h1)
  have hsp2 : sp ^ 2 = p := Real.sq_sqrt (le_of_lt h3)
  have hs1a2 : s1a ^ 2 = 1 - sa ^ 2 := by rw [hs1adef, Real.sq_sqrt h1a, hsa2]
  have hs1p2 : s1p ^ 2 = 1 - sp ^ 2 := by rw [hs1pdef, Real.sq_sqrt h1p, hsp2]
  have hD : 0 < s1p * sa + s1a * sp :=
    add_pos_of_pos_of_nonneg (mul_pos hs1p hsa) (mul_nonneg hs1a (le_of_lt hsp))
  rw [← hsa2, ← hsp2]
  exact plms_ddim_algebra sa sp s1a s1p x n hsa hsp hD hs1a2 hs1p2

theorem get_x_pred_eq_ddim_witness :
    (0 : ℝ) < alphas_cumprod [1 / 2, 1 / 2] 1 ∧ alphas_cumprod [1 / 2, 1 / 2] 1 < 1 ∧
      (0 : ℝ) < alphas_cumprod [1 / 2, 1 / 2] (1 - 1) ∧
      alphas_cumprod [1 / 2, 1 / 2] (1 - 1) < 1 ∧
      get_x_pred [1 / 2, 1 / 2] 1 2 3 1 = ddim_x_prev [1 / 2, 1 / 2] 1 2 3 1 :=
  ⟨by norm_num [alphas_cumprod], by norm_num [alphas_cumprod],
    by norm_num [alphas_cumprod], by norm_num [alphas_cumprod],
    get_x_pred_eq_ddim [1 / 2, 1 / 2] 1 2 3 1 (by norm_num [alphas_cumprod])
      (by norm_num [alphas_cumprod]) (by norm_num [alphas_cumprod])
      (by norm_num [alphas_cumprod])⟩

end DiffusionSVC
